import Mathlib

/-!
# go-crud: the account HTTP service

A shallow embedding of `types.go`, `database.go` and `api.go`.

* Go `int64` / `int` values are `Int`; the one arithmetic step of the program
  (`Balance += int64(req.Amount)`) wraps with `wrapInt64`.
* A Go `error` is its message text; `(v, nil)` is `Except.ok v` and `(_, err)` is
  `Except.error err.Error()`.
* The `Database` interface is a record of state-passing operations; `Postgres` is
  the relational provider, its SQL statements read over a table of rows.
* The libraries the program calls (`gorilla/mux`, `strconv`, `encoding/json`,
  `math/rand`, `time`) are modelled by their documented behaviour or taken as
  parameters (`Env`).
* The storage engine is modelled by the values its columns hold; its resource limits
  (memory, message sizes) and its availability are outside the embedding.
-/

namespace GoCrud

/-! ## types.go -/

/-- An instant as stored in a `timestamptz` column. -/
abbrev Time := Nat

/-- The struct `Account`. -/
structure Account where
  ID : Int
  FirstName : String
  LastName : String
  Number : Int
  Balance : Int
  CreatedAt : Time
  deriving DecidableEq, Repr

/-- The struct `TransferRequest`. -/
structure TransferRequest where
  ToAccount : Int
  Amount : Int
  deriving DecidableEq, Repr

/-- The struct `CreateAccountRequest`. -/
structure CreateAccountRequest where
  FirstName : String
  LastName : String
  deriving DecidableEq, Repr

/-- The struct `UpdateAccountRequest`. -/
structure UpdateAccountRequest where
  FirstName : String
  LastName : String
  Balance : Int
  deriving DecidableEq, Repr

/-- Two's-complement wrap of a mathematical integer into Go's `int64`. -/
def wrapInt64 (x : Int) : Int := (x + 9223372036854775808) % 18446744073709551616 - 9223372036854775808

/-- The values of Go's `int64`. -/
def inInt64 (x : Int) : Prop := -9223372036854775808 ≤ x ∧ x ≤ 9223372036854775807

instance (x : Int) : Decidable (inInt64 x) := by unfold inInt64; infer_instance

/-- The call `rand.Intn(n)`: a value in `[0, n)` picked by the random source `src`. -/
def Intn (src : Nat) (n : Nat) : Nat := src % n

/-- What the handlers read from outside the request and the storage: the clock, the
random source, the outcome of `json.NewDecoder(r.Body).Decode(req)` for each of the
three request structs, and the printability table of `strconv.IsPrint` for the characters
above U+00FF. -/
structure Env where
  now : Time
  rand : Nat
  isPrint : Char → Bool
  decodeCreate : String → Except String CreateAccountRequest
  decodeUpdate : String → Except String UpdateAccountRequest
  decodeTransfer : String → Except String TransferRequest

/-- The constructor `NewAccount`: `ID` and `Balance` keep Go's zero value. -/
def NewAccount (env : Env) (firstName lastName : String) : Account :=
  { ID := 0
    FirstName := firstName
    LastName := lastName
    Number := (Intn env.rand 1000000 : Nat)
    Balance := 0
    CreatedAt := env.now }

/-- The constructor `UpdateAccount` of `types.go`: `Number` keeps Go's zero value. -/
def UpdateAccount (env : Env) (id : Int) (firstName lastName : String) (balance : Int) : Account :=
  { ID := id
    FirstName := firstName
    LastName := lastName
    Number := 0
    Balance := balance
    CreatedAt := env.now }

/-! ## database.go -/

/-- The interface `Database`, over a storage state `σ`. A provider returns a non-nil
account whenever it returns a nil error, as `Postgres` does, so the `accountExist == nil`
test of the update handler adds nothing to its `errFind != nil` test. -/
structure Database (σ : Type) where
  FindAccounts : σ → Except String (List Account) × σ
  FindAccountById : Int → σ → Except String Account × σ
  CreateAccount : Account → σ → Except String Unit × σ
  UpdateAccount : Account → σ → Except String Account × σ
  DeleteAccount : Int → σ → Except String Unit × σ

/-- The table `accounts` together with the sequence behind its `serial` key:
`seq` is the last value the sequence handed out. -/
structure Table where
  rows : List Account
  seq : Int
  deriving DecidableEq, Repr

/-- The values of an `integer` (and `serial`) column. -/
def inInt32 (x : Int) : Prop := -2147483648 ≤ x ∧ x ≤ 2147483647

instance (x : Int) : Decidable (inInt32 x) := by unfold inInt32; infer_instance

/-- The values of a `varchar` column of a UTF-8 database: any text without the
character of code zero. -/
def validText (s : String) : Prop := Char.ofNat 0 ∉ s.data

instance (s : String) : Decidable (validText s) := by unfold validText; infer_instance

/-- The constraints the schema of `CreateAccountTable` puts on a table: `id` is a
primary key, `id`, `number` and `balance` are `integer` columns, and `first_name` and
`last_name` are `varchar` columns. -/
def Table.wf (t : Table) : Prop :=
  (t.rows.map Account.ID).Nodup ∧
    ∀ r ∈ t.rows, (inInt32 r.ID ∧ inInt32 r.Number ∧ inInt32 r.Balance) ∧
      validText r.FirstName ∧ validText r.LastName

instance (t : Table) : Decidable t.wf := by unfold Table.wf; infer_instance

/-- The message of `sql.ErrNoRows`. -/
def errNoRows : String := "sql: no rows in result set"

/-- The engine's message for a parameter that does not fit an `integer` column. -/
def errOutOfRange (v : Int) : String :=
  "pq: value \"" ++ toString v ++ "\" is out of range for type integer"

/-- The engine's message for a text parameter that holds the character of code zero. -/
def errInvalidByte : String :=
  "pq: invalid byte sequence for encoding \"UTF8\": 0x00"

/-- The engine's message for a second row with an existing primary key. -/
def errDuplicateKey : String :=
  "pq: duplicate key value violates unique constraint \"accounts_pkey\""

/-- The engine's message for an exhausted `serial` sequence. -/
def errSequence : String :=
  "pq: nextval: reached maximum value of sequence \"accounts_id_seq\" (2147483647)"

namespace Postgres

/-- The statement `SELECT * FROM accounts`, every row scanned. -/
def FindAccounts (t : Table) : Except String (List Account) × Table :=
  (.ok t.rows, t)

/-- The statement `SELECT * FROM accounts WHERE id = $1`, its first row scanned. The
engine types `$1` as the `integer` key column and rejects a value outside its range;
a query without rows makes `Scan` return `sql.ErrNoRows`. -/
def FindAccountById (accoudId : Int) (t : Table) : Except String Account × Table :=
  if inInt32 accoudId then
    match t.rows.find? (fun r => r.ID == accoudId) with
    | some account => (.ok account, t)
    | none => (.error errNoRows, t)
  else (.error (errOutOfRange accoudId), t)

/-- The statement `INSERT INTO accounts (first_name, last_name, number, balance,
created_at) VALUES ($1, $2, $3, $4, $5)`. The engine rejects a parameter that its column
cannot hold before any row is written; the key comes from the sequence, which keeps the
value it handed out also when the insert is rejected. -/
def CreateAccount (account : Account) (t : Table) : Except String Unit × Table :=
  if ¬ validText account.FirstName then (.error errInvalidByte, t)
  else if ¬ validText account.LastName then (.error errInvalidByte, t)
  else if ¬ inInt32 account.Number then (.error (errOutOfRange account.Number), t)
  else if ¬ inInt32 account.Balance then (.error (errOutOfRange account.Balance), t)
  else
    let id := t.seq + 1
    if ¬ inInt32 id then (.error errSequence, t)
    else if t.rows.any (fun r => r.ID == id) then (.error errDuplicateKey, { t with seq := id })
    else (.ok (), { rows := t.rows ++ [{ account with ID := id }], seq := id })

/-- The rows after `UPDATE accounts SET first_name = $2, last_name = $3, balance = $4,
created_at = $5 WHERE id = $1`. -/
def updateRows (account : Account) (rows : List Account) : List Account :=
  rows.map (fun r =>
    if r.ID == account.ID then
      { r with FirstName := account.FirstName, LastName := account.LastName,
               Balance := account.Balance, CreatedAt := account.CreatedAt }
    else r)

/-- The statement of `updateRows` with `RETURNING *`, its first returned row scanned.
The engine rejects a parameter that its column cannot hold (a key or a balance outside
the `integer` range, a name with the character of code zero) before any row is
written. -/
def UpdateAccount (account : Account) (t : Table) : Except String Account × Table :=
  if ¬ inInt32 account.ID then (.error (errOutOfRange account.ID), t)
  else if ¬ validText account.FirstName then (.error errInvalidByte, t)
  else if ¬ validText account.LastName then (.error errInvalidByte, t)
  else if ¬ inInt32 account.Balance then (.error (errOutOfRange account.Balance), t)
  else
    let t1 : Table := { t with rows := updateRows account t.rows }
    match t1.rows.find? (fun r => r.ID == account.ID) with
    | some updatedAccount => (.ok updatedAccount, t1)
    | none => (.error errNoRows, t1)

/-- The statement `DELETE FROM accounts WHERE id = $1`. -/
def DeleteAccount (id : Int) (t : Table) : Except String Unit × Table :=
  if inInt32 id then (.ok (), { t with rows := t.rows.filter (fun r => r.ID != id) })
  else (.error (errOutOfRange id), t)

end Postgres

/-- The provider `*Postgres` as a `Database`. -/
def postgres : Database Table where
  FindAccounts := Postgres.FindAccounts
  FindAccountById := Postgres.FindAccountById
  CreateAccount := Postgres.CreateAccount
  UpdateAccount := Postgres.UpdateAccount
  DeleteAccount := Postgres.DeleteAccount

/-- One call on the `Database` interface. -/
inductive PortCall where
  | FindAccounts
  | FindAccountById (id : Int)
  | CreateAccount (account : Account)
  | UpdateAccount (account : Account)
  | DeleteAccount (id : Int)
  deriving DecidableEq, Repr

/-- A provider that behaves as `db` and also records every call made on it, oldest
first. -/
def traced {σ : Type} (db : Database σ) : Database (σ × List PortCall) where
  FindAccounts := fun s => ((db.FindAccounts s.1).1, (db.FindAccounts s.1).2, s.2 ++ [.FindAccounts])
  FindAccountById := fun id s =>
    ((db.FindAccountById id s.1).1, (db.FindAccountById id s.1).2, s.2 ++ [.FindAccountById id])
  CreateAccount := fun a s =>
    ((db.CreateAccount a s.1).1, (db.CreateAccount a s.1).2, s.2 ++ [.CreateAccount a])
  UpdateAccount := fun a s =>
    ((db.UpdateAccount a s.1).1, (db.UpdateAccount a s.1).2, s.2 ++ [.UpdateAccount a])
  DeleteAccount := fun id s =>
    ((db.DeleteAccount id s.1).1, (db.DeleteAccount id s.1).2, s.2 ++ [.DeleteAccount id])

/-! ## api.go -/

deriving instance DecidableEq for Except

/-- The two failures of `strconv` number parsing, `ErrSyntax` and `ErrRange`. -/
inductive ErrKind where
  | invalid
  | range
  deriving DecidableEq, Repr

/-- The message of `ErrSyntax` and of `ErrRange`. -/
def ErrKind.text : ErrKind → String
  | .invalid => "invalid syntax"
  | .range => "value out of range"

/-- The error `*NumError` of `strconv`: the failing function, its input, the failure. -/
structure NumError where
  Func : String
  Num : String
  Err : ErrKind
  deriving DecidableEq, Repr

/-- The digit of `n` modulo 16 in the alphabet `0123456789abcdef`. -/
def lowerhex (n : Nat) : Char :=
  if n % 16 < 10 then Char.ofNat (48 + n % 16) else Char.ofNat (87 + n % 16)

/-- The function `strconv.IsPrint`: decided by two intervals up to U+00FF and by the
library's tables, here `table`, above. -/
def IsPrint (table : Char → Bool) (c : Char) : Bool :=
  if c.toNat ≤ 255 then
    (32 ≤ c.toNat && c.toNat < 127) || (161 ≤ c.toNat && c.toNat != 173)
  else table c

/-- How `strconv.Quote` writes one character: the quote and the backslash are
backslashed, a printable character stands for itself, and any other is written as one
of the escapes of a Go string literal. -/
def appendEscapedRune (table : Char → Bool) (c : Char) : List Char :=
  if c.toNat = 34 ∨ c.toNat = 92 then [Char.ofNat 92, c]
  else if IsPrint table c then [c]
  else if c.toNat = 7 then [Char.ofNat 92, 'a']
  else if c.toNat = 8 then [Char.ofNat 92, 'b']
  else if c.toNat = 12 then [Char.ofNat 92, 'f']
  else if c.toNat = 10 then [Char.ofNat 92, 'n']
  else if c.toNat = 13 then [Char.ofNat 92, 'r']
  else if c.toNat = 9 then [Char.ofNat 92, 't']
  else if c.toNat = 11 then [Char.ofNat 92, 'v']
  else if c.toNat < 32 ∨ c.toNat = 127 then
    [Char.ofNat 92, 'x', lowerhex (c.toNat / 16), lowerhex c.toNat]
  else if c.toNat < 65536 then
    [Char.ofNat 92, 'u', lowerhex (c.toNat / 4096), lowerhex (c.toNat / 256),
      lowerhex (c.toNat / 16), lowerhex c.toNat]
  else
    [Char.ofNat 92, 'U', lowerhex (c.toNat / 268435456), lowerhex (c.toNat / 16777216),
      lowerhex (c.toNat / 1048576), lowerhex (c.toNat / 65536), lowerhex (c.toNat / 4096),
      lowerhex (c.toNat / 256), lowerhex (c.toNat / 16), lowerhex c.toNat]

/-- The function `strconv.Quote`. -/
def Quote (table : Char → Bool) (s : String) : String :=
  String.mk (Char.ofNat 34 :: ((s.data.map (appendEscapedRune table)).flatten ++ [Char.ofNat 34]))

/-- The method `(*NumError).Error`. -/
def NumError.Error (table : Char → Bool) (e : NumError) : String :=
  "strconv." ++ e.Func ++ ": parsing " ++ Quote table e.Num ++ ": " ++ e.Err.text

/-- The digit loop of `strconv.ParseUint(s, 10, 64)`: the first character that is not a
decimal digit is a syntax failure, the first step that leaves `uint64` a range
failure. -/
def parseUint : List Char → Nat → Except ErrKind Nat
  | [], n => .ok n
  | c :: cs, n =>
    if c.isDigit then
      if 10 * n + (c.toNat - 48) > 18446744073709551615 then .error .range
      else parseUint cs (10 * n + (c.toNat - 48))
    else .error .invalid

/-- The characters left after an optional leading sign. -/
def dropSign : List Char → List Char
  | [] => []
  | c :: cs => if c = '+' ∨ c = '-' then cs else c :: cs

/-- Whether the numeral starts with a minus sign. -/
def isNeg : List Char → Bool
  | [] => false
  | c :: _ => c = '-'

/-- The function `strconv.Atoi` on a platform whose `int` has 64 bits. -/
def Atoi (s : String) : Except NumError Int :=
  if dropSign s.data = [] then .error ⟨"Atoi", s, .invalid⟩
  else
    match parseUint (dropSign s.data) 0 with
    | .error k => .error ⟨"Atoi", s, k⟩
    | .ok un =>
      if isNeg s.data then
        if un > 9223372036854775808 then .error ⟨"Atoi", s, .range⟩ else .ok (-(un : Int))
      else
        if un ≥ 9223372036854775808 then .error ⟨"Atoi", s, .range⟩ else .ok (un : Int)

/-- What a handler sees of a `*http.Request`: the method, the URL path split at its
slashes, the body, and the route variables `mux.Vars(r)`. -/
structure Request where
  Method : String
  Path : List String
  Body : String
  Vars : List (String × String) := []
  deriving DecidableEq, Repr

/-- The lookup `mux.Vars(r)[key]`, the empty string when the key is absent. -/
def muxVars (r : Request) (key : String) : String := (r.Vars.lookup key).getD ""

/-- A value stored in a `map[string]interface{}` response body. -/
inductive Value where
  | str (s : String)
  | account (a : Account)
  | accounts (l : List Account)
  deriving DecidableEq, Repr

/-- The `body` argument of `WriteJSON`, or the router's plain text. -/
inductive Body where
  | object (fields : List (String × Value))
  | apiError (Error : String)
  | text (s : String)
  deriving DecidableEq, Repr

/-- One response written to the client: status code and encoded body. -/
structure Response where
  status : Nat
  body : Body
  deriving DecidableEq, Repr

/-- The `http.ResponseWriter`: the responses written so far, oldest first. -/
abbrev ResponseWriter := List Response

/-- The function `WriteJSON`: sets the content type, writes the status and encodes the
body; encoding these bodies does not fail. -/
def WriteJSON (w : ResponseWriter) (status : Nat) (body : Body) : Option String × ResponseWriter :=
  (none, w ++ [⟨status, body⟩])

/-- The type `apiFunc`: the returned error, the writer and the storage afterwards. -/
abbrev apiFunc (σ : Type) := Request → ResponseWriter → σ → Option String × ResponseWriter × σ

/-- The function `toId`; the error of `strconv.Atoi` is passed on as its message. -/
def toId (env : Env) (r : Request) : Except String Int :=
  match Atoi (muxVars r "id") with
  | .error err => .error (err.Error env.isPrint)
  | .ok intId => .ok intId

section handlers

variable {σ : Type} (db : Database σ) (env : Env)

/-- The handler `handlerFindAccountById`. -/
def handlerFindAccountById : apiFunc σ := fun r w s =>
  match toId env r with
  | .error err => (some err, w, s)
  | .ok id =>
    match db.FindAccountById id s with
    | (.error errQuery, s1) => (some errQuery, w, s1)
    | (.ok account, s1) =>
      let out := WriteJSON w 200 (.object [("message", .str "success"), ("data", .account account)])
      (out.1, out.2, s1)

/-- The handler `handlerFindAccounts`. -/
def handlerFindAccounts : apiFunc σ := fun _ w s =>
  match db.FindAccounts s with
  | (.error err, s1) => (some err, w, s1)
  | (.ok accounts, s1) =>
    let out := WriteJSON w 200 (.object [("message", .str "success"), ("data", .accounts accounts)])
    (out.1, out.2, s1)

/-- The handler `handlerCreateAccount`. -/
def handlerCreateAccount : apiFunc σ := fun r w s =>
  match env.decodeCreate r.Body with
  | .error err => (some err, w, s)
  | .ok req =>
    let account := NewAccount env req.FirstName req.LastName
    match db.CreateAccount account s with
    | (.error err, s1) => (some err, w, s1)
    | (.ok _, s1) =>
      let out := WriteJSON w 201 (.object [("message", .str "account created")])
      (out.1, out.2, s1)

/-- The handler `handlerUpdateAccount`. When the update operation fails the handler
executes `return err`, and `err`, last assigned by `Decode`, is nil there. -/
def handlerUpdateAccount : apiFunc σ := fun r w s =>
  match toId env r with
  | .error err => (some err, w, s)
  | .ok id =>
    match db.FindAccountById id s with
    | (.error _, s1) =>
      let out := WriteJSON w 201
        (.object [("error", .str ("can\x27t find account: " ++ toString id))])
      (out.1, out.2, s1)
    | (.ok _, s1) =>
      match env.decodeUpdate r.Body with
      | .error err => (some err, w, s1)
      | .ok req =>
        let err : Option String := none
        let account := UpdateAccount env id req.FirstName req.LastName req.Balance
        match db.UpdateAccount account s1 with
        | (.error _, s2) => (err, w, s2)
        | (.ok updatedAccount, s2) =>
          let out := WriteJSON w 200
            (.object [("message", .str "account updated"), ("data", .account updatedAccount)])
          (out.1, out.2, s2)

/-- The handler `handlerDeleteAccount`. -/
def handlerDeleteAccount : apiFunc σ := fun r w s =>
  match toId env r with
  | .error err => (some err, w, s)
  | .ok id =>
    match db.DeleteAccount id s with
    | (.error err, s1) => (some err, w, s1)
    | (.ok _, s1) =>
      let out := WriteJSON w 200 (.object [("message", .str "account deleted")])
      (out.1, out.2, s1)

/-- The handler `handlerTransfer`. -/
def handlerTransfer : apiFunc σ := fun r w s =>
  if r.Method = "POST" then
    match env.decodeTransfer r.Body with
    | .error err => (some err, w, s)
    | .ok req =>
      match db.FindAccountById req.ToAccount s with
      | (.error err, s1) => (some err, w, s1)
      | (.ok accountExist, s1) =>
        let accountExist := { accountExist with Balance := wrapInt64 (accountExist.Balance + req.Amount) }
        match db.UpdateAccount accountExist s1 with
        | (.error errUpdate, s2) => (some errUpdate, w, s2)
        | (.ok account, s2) =>
          let out := WriteJSON w 200
            (.object [("message", .str "transfer succeed"), ("data", .account account)])
          (out.1, out.2, s2)
  else (some ("method not allowed " ++ r.Method), w, s)

/-- The handler `handlerAccountById`. -/
def handlerAccountById : apiFunc σ := fun r w s =>
  let id := muxVars r "id"
  if r.Method = "GET" ∧ id ≠ "" then handlerFindAccountById db env r w s
  else if r.Method = "PATCH" ∧ id ≠ "" then handlerUpdateAccount db env r w s
  else (some ("method not allowed " ++ r.Method), w, s)

/-- The handler `handlerAccount`. -/
def handlerAccount : apiFunc σ := fun r w s =>
  if r.Method = "GET" then handlerFindAccounts db r w s
  else if r.Method = "POST" then handlerCreateAccount db env r w s
  else if r.Method = "DELETE" then handlerDeleteAccount db env r w s
  else (some ("method not allowed " ++ r.Method), w, s)

/-- The wrapper `makeHTTPHandlerFunc`: a returned error is written as a 400 `ApiError`. -/
def makeHTTPHandlerFunc (f : apiFunc σ) (r : Request) (w : ResponseWriter) (s : σ) :
    ResponseWriter × σ :=
  match f r w s with
  | (some err, w1, s1) => ((WriteJSON w1 400 (.apiError err)).2, s1)
  | (none, w1, s1) => (w1, s1)

/-- The three routes registered in `Run`. -/
inductive Route where
  | transfer
  | accounts
  | accountById (id : String)
  deriving DecidableEq, Repr

/-- The router of `Run`: the templates `/accounts/transfer`, `/accounts` and
`/accounts/{id}` are tried in the order they were registered, and `{id}` stands for
one non-empty path segment. -/
def muxMatch : List String → Option Route
  | [a] => if a = "accounts" then some .accounts else none
  | [a, b] =>
    if a = "accounts" then
      if b = "transfer" then some .transfer
      else if b = "" then none
      else some (.accountById b)
    else none
  | _ => none

/-- The server started by `Run` answering one request from a fresh writer: the matched
route's handler runs with the route variables set, and a path no route matches gets the
router's 404. -/
def Run (r : Request) (s : σ) : ResponseWriter × σ :=
  match muxMatch r.Path with
  | some .transfer => makeHTTPHandlerFunc (handlerTransfer db env) { r with Vars := [] } [] s
  | some .accounts => makeHTTPHandlerFunc (handlerAccount db env) { r with Vars := [] } [] s
  | some (.accountById id) =>
    makeHTTPHandlerFunc (handlerAccountById db env) { r with Vars := [("id", id)] } [] s
  | none => ([⟨404, .text "404 page not found\n"⟩], s)

end handlers

/-- Decoding outcomes for the request bodies used in the worked examples below; any
other body is reported as malformed. -/
def sampleEnv : Env where
  now := 1700000000
  rand := 123456789
  isPrint := fun _ => true
  decodeCreate := fun body =>
    if body = "\x7b\"firstName\":\"A\",\"lastName\":\"B\"\x7d" then .ok ⟨"A", "B"⟩
    else .error "unexpected end of JSON input"
  decodeUpdate := fun body =>
    if body = "\x7b\"firstName\":\"A\",\"lastName\":\"B\",\"balance\":\"500\"\x7d" then
      .ok ⟨"A", "B", 500⟩
    else if body = "\x7b\"firstName\":\"A\",\"lastName\":\"B\",\"balance\":\"2147483648\"\x7d" then
      .ok ⟨"A", "B", 2147483648⟩
    else if body = "\x7b\"firstName\":\"A\\u0000\",\"lastName\":\"B\",\"balance\":\"500\"\x7d" then
      .ok ⟨"A\x00", "B", 500⟩
    else .error "unexpected end of JSON input"
  decodeTransfer := fun body =>
    if body = "\x7b\"toAccount\":\"1\",\"amount\":\"100\"\x7d" then .ok ⟨1, 100⟩
    else .error "unexpected end of JSON input"

/-- A table with two accounts, used in the worked examples below. -/
def sampleTable : Table where
  rows := [⟨1, "Ann", "Lee", 424242, 1000, 1600000000⟩, ⟨2, "Bob", "Ray", 777, 50, 1650000000⟩]
  seq := 2

/-- The routing table as the specification lists it: the methods served on each
route. -/
def listed : Route → String → Bool
  | .accounts, m => m = "GET" || m = "POST" || m = "DELETE"
  | .accountById _, m => m = "GET" || m = "PATCH"
  | .transfer, m => m = "POST"

/-- The number a string of decimal digits denotes, most significant digit first, by
positional notation. -/
def digitsValue (ds : List Char) : Nat :=
  Nat.ofDigits 10 (ds.reverse.map (fun c => c.toNat - 48))

/-- The specification's "base-10 integer numeral": `s` is an optional sign followed by at
least one decimal digit, and denotes `n`. -/
def IsNumeralOf (s : String) (n : Int) : Prop :=
  ∃ sign ds, s.data = sign ++ ds ∧ (sign = [] ∨ sign = ['+'] ∨ sign = ['-']) ∧ ds ≠ [] ∧
    (∀ c ∈ ds, c.isDigit = true) ∧
    n = if sign = ['-'] then -(digitsValue ds : Int) else (digitsValue ds : Int)

/-! ## Auxiliary facts -/

/-- A path matched by `/accounts/{id}` has two segments, the second one non-empty and
different from `transfer`. -/
theorem muxMatch_accountById {path : List String} {seg : String}
    (h : muxMatch path = some (.accountById seg)) :
    path = ["accounts", seg] ∧ seg ≠ "" ∧ seg ≠ "transfer" := by
  unfold muxMatch at h
  split at h
  · split at h <;> simp at h
  · rename_i a b
    by_cases ha : a = "accounts"
    · by_cases hb : b = "transfer"
      · simp [ha, hb] at h
      · by_cases hb2 : b = ""
        · simp [ha, hb, hb2] at h
        · simp only [ha, hb, hb2, if_true, if_false, Option.some.injEq,
            Route.accountById.injEq] at h
          subst h
          exact ⟨by rw [ha], hb2, hb⟩
    · simp [ha] at h
  · simp at h

/-- The route variable `id` as the handlers of `/accounts/{id}` read it. -/
theorem muxVars_id (m : String) (p : List String) (b seg : String) :
    muxVars ⟨m, p, b, [("id", seg)]⟩ "id" = seg := by
  simp [muxVars, List.lookup]

/-- The route variable `id` on a route without variables. -/
theorem muxVars_nil (m : String) (p : List String) (b : String) :
    muxVars ⟨m, p, b, []⟩ "id" = "" := by
  simp [muxVars, List.lookup]

/-- A lookup by key finds nothing when no row carries the key. -/
theorem find_absent {rows : List Account} {id : Int} (h : ∀ a ∈ rows, a.ID ≠ id) :
    rows.find? (fun r => r.ID == id) = none := by
  rw [List.find?_eq_none]
  intro a ha
  simpa using h a ha

/-- Under the primary key, a lookup by the key of a stored row finds that row. -/
theorem find_stored {rows : List Account} (hkey : (rows.map Account.ID).Nodup)
    {a : Account} (ha : a ∈ rows) : rows.find? (fun r => r.ID == a.ID) = some a := by
  induction rows with
  | nil => simp at ha
  | cons x xs ih =>
    rw [List.map_cons, List.nodup_cons] at hkey
    rcases List.mem_cons.mp ha with h | h
    · subst h; simp
    · have hne : x.ID ≠ a.ID := fun hx => hkey.1 (hx ▸ List.mem_map_of_mem Account.ID h)
      simp [List.find?_cons, hne, ih hkey.2 h]

/-- The messages of the storage engine and of the driver are not empty. -/
theorem errOutOfRange_ne_empty (v : Int) : errOutOfRange v ≠ "" := by
  intro h
  have := congrArg String.length h
  simp only [errOutOfRange, String.length_append] at this
  have h1 : "pq: value \"".length = 11 := by decide
  have h2 : "".length = 0 := by decide
  omega

/-- A value of `int64` is not changed by the wrap. -/
theorem wrapInt64_of_inInt64 {x : Int} (h : inInt64 x) : wrapInt64 x = x := by
  unfold inInt64 at h
  unfold wrapInt64
  omega

/-- The `integer` columns hold `int64` values. -/
theorem inInt64_of_inInt32 {x : Int} (h : inInt32 x) : inInt64 x := by
  unfold inInt32 at h
  unfold inInt64
  omega

/-- The row an `UPDATE ... RETURNING *` returns first is the row the key finds, with
the four assigned columns replaced. -/
theorem find_updateRows (acc : Account) (rows : List Account) :
    (Postgres.updateRows acc rows).find? (fun r => r.ID == acc.ID)
      = (rows.find? (fun r => r.ID == acc.ID)).map (fun r =>
          { r with FirstName := acc.FirstName, LastName := acc.LastName,
                   Balance := acc.Balance, CreatedAt := acc.CreatedAt }) := by
  induction rows with
  | nil => simp [Postgres.updateRows]
  | cons x xs ih =>
    unfold Postgres.updateRows at ih ⊢
    by_cases hx : x.ID = acc.ID
    · have h1 : (x.ID == acc.ID) = true := by simpa using hx
      simp only [List.map_cons, List.find?_cons, h1, if_true, Option.map_some']
    · have h1 : (x.ID == acc.ID) = false := by simpa using hx
      simp only [List.map_cons, List.find?_cons, h1, Bool.false_eq_true, if_false]
      exact ih

/-- Under the primary key, writing a stored row back with another balance changes the
balance of that row and nothing else. -/
theorem updateRows_balance {rows : List Account} (hkey : (rows.map Account.ID).Nodup)
    {a : Account} (ha : a ∈ rows) (b : Int) :
    Postgres.updateRows { a with Balance := b } rows
      = rows.map (fun x => if x.ID = a.ID then { x with Balance := b } else x) := by
  unfold Postgres.updateRows
  apply List.map_congr_left
  intro x hx
  by_cases h : x.ID = a.ID
  · have hxa : x = a := List.inj_on_of_nodup_map hkey hx ha h
    subst hxa
    simp
  · simp [h]

/-- Replacing balances by values of the column keeps the schema constraints. -/
theorem wf_credit {t : Table} (hwf : t.wf) (i b : Int) (hb : inInt32 b) :
    Table.wf { t with rows := t.rows.map (fun x => if x.ID = i then { x with Balance := b } else x) } := by
  constructor
  · have : (t.rows.map (fun x => if x.ID = i then { x with Balance := b } else x)).map Account.ID
        = t.rows.map Account.ID := by
      rw [List.map_map]
      apply List.map_congr_left
      intro x _
      by_cases h : x.ID = i <;> simp [h]
    simpa [this] using hwf.1
  · intro r hr
    simp only [List.mem_map] at hr
    obtain ⟨x, hx, rfl⟩ := hr
    by_cases h : x.ID = i
    · simp only [h, if_true]
      exact ⟨⟨h ▸ (hwf.2 x hx).1.1, (hwf.2 x hx).1.2.1, hb⟩, (hwf.2 x hx).2⟩
    · simp only [h, if_false]
      exact hwf.2 x hx

/-- On a table that satisfies the schema, the lookup of a stored row returns it. -/
theorem FindAccountById_stored {t : Table} (hwf : t.wf) {a : Account} (ha : a ∈ t.rows) :
    Postgres.FindAccountById a.ID t = (.ok a, t) := by
  unfold Postgres.FindAccountById
  rw [if_pos (hwf.2 a ha).1.1, find_stored hwf.1 ha]

/-- On a table that satisfies the schema, the lookup of an absent key fails and leaves
the table as it was. -/
theorem FindAccountById_absent {t : Table} {id : Int} (h : ∀ a ∈ t.rows, a.ID ≠ id) :
    ∃ m, m ≠ "" ∧ Postgres.FindAccountById id t = (.error m, t) := by
  unfold Postgres.FindAccountById
  by_cases hr : inInt32 id
  · exact ⟨errNoRows, by decide, by rw [if_pos hr, find_absent h]⟩
  · exact ⟨errOutOfRange id, errOutOfRange_ne_empty id, by rw [if_neg hr]⟩

/-- Writing a stored row back with another balance that fits the column returns the row
with that balance and rewrites only that balance. -/
theorem UpdateAccount_balance {t : Table} (hwf : t.wf) {a : Account} (ha : a ∈ t.rows)
    (b : Int) (hb : inInt32 b) :
    Postgres.UpdateAccount { a with Balance := b } t
      = (.ok { a with Balance := b },
          { t with rows := t.rows.map (fun x => if x.ID = a.ID then { x with Balance := b } else x) }) := by
  have hu := find_updateRows { a with Balance := b } t.rows
  simp only [find_stored hwf.1 ha, Option.map_some'] at hu
  unfold Postgres.UpdateAccount
  simp only [(hwf.2 a ha).1.1, (hwf.2 a ha).2.1, (hwf.2 a ha).2.2, hb, not_true_eq_false,
    if_false]
  rw [hu, updateRows_balance hwf.1 ha b]

/-- Writing a row back with a balance that does not fit the column fails and leaves the
table as it was. -/
theorem UpdateAccount_rejected (a : Account) (t : Table) (hb : ¬ inInt32 a.Balance) :
    ∃ m, Postgres.UpdateAccount a t = (.error m, t) := by
  unfold Postgres.UpdateAccount
  by_cases hi : inInt32 a.ID
  · by_cases hf : validText a.FirstName
    · by_cases hl : validText a.LastName
      · exact ⟨errOutOfRange a.Balance, by simp [hi, hf, hl, hb]⟩
      · exact ⟨errInvalidByte, by simp [hi, hf, hl]⟩
    · exact ⟨errInvalidByte, by simp [hi, hf]⟩
  · exact ⟨errOutOfRange a.ID, by simp [hi]⟩

/-- One transfer on Postgres to a stored account whose new balance fits the column:
status 200, the credited account as data, and only that balance rewritten. -/
theorem transfer_step (env : Env) (r : Request) (t : Table) (acct : Account)
    (req : TransferRequest)
    (hroute : muxMatch r.Path = some .transfer) (hm : r.Method = "POST")
    (hdec : env.decodeTransfer r.Body = .ok req) (hto : req.ToAccount = acct.ID)
    (hwf : t.wf) (hacct : acct ∈ t.rows)
    (hnb : inInt32 (wrapInt64 (acct.Balance + req.Amount))) :
    Run postgres env r t
      = ([⟨200, .object [("message", .str "transfer succeed"),
            ("data", .account { acct with Balance := wrapInt64 (acct.Balance + req.Amount) })]⟩],
          { t with rows := t.rows.map (fun x =>
              if x.ID = acct.ID then { x with Balance := wrapInt64 (acct.Balance + req.Amount) }
              else x) }) := by
  have hf := FindAccountById_stored hwf hacct
  have hu := UpdateAccount_balance hwf hacct _ hnb
  simp only [Run, hroute, makeHTTPHandlerFunc, handlerTransfer, hm, if_true, hdec, hto,
    postgres, hf, hu, WriteJSON, List.nil_append]

/-- Overwriting a stored row through the update constructor, with names and a balance
that fit their columns, returns the row with the new names, balance and timestamp and
the number it had, and rewrites only that row. -/
theorem UpdateAccount_overwrite (env : Env) {t : Table} (hwf : t.wf) {a : Account}
    (ha : a ∈ t.rows) (f l : String) (b : Int) (hf : validText f) (hl : validText l)
    (hb : inInt32 b) :
    Postgres.UpdateAccount (UpdateAccount env a.ID f l b) t
      = (.ok ⟨a.ID, f, l, a.Number, b, env.now⟩,
          { t with rows := t.rows.map (fun x =>
              if x.ID = a.ID then ⟨a.ID, f, l, a.Number, b, env.now⟩ else x) }) := by
  have hu := find_updateRows (UpdateAccount env a.ID f l b) t.rows
  have hid : (UpdateAccount env a.ID f l b).ID = a.ID := rfl
  have hbal : (UpdateAccount env a.ID f l b).Balance = b := rfl
  have hfn : (UpdateAccount env a.ID f l b).FirstName = f := rfl
  have hln : (UpdateAccount env a.ID f l b).LastName = l := rfl
  rw [hid] at hu
  simp only [find_stored hwf.1 ha, Option.map_some'] at hu
  have hrows : Postgres.updateRows (UpdateAccount env a.ID f l b) t.rows
      = t.rows.map (fun x => if x.ID = a.ID then ⟨a.ID, f, l, a.Number, b, env.now⟩ else x) := by
    unfold Postgres.updateRows
    apply List.map_congr_left
    intro x hx
    by_cases h : x.ID = a.ID
    · have hxa : x = a := List.inj_on_of_nodup_map hwf.1 hx ha h
      subst hxa
      simp [UpdateAccount]
    · simp [h, UpdateAccount]
  unfold Postgres.UpdateAccount
  simp only [hid, hbal, hfn, hln, (hwf.2 a ha).1.1, hf, hl, hb, not_true_eq_false, if_false]
  rw [hu, hrows]
  rfl

/-- An insert either fails or appends the row under the next key of the sequence. -/
theorem CreateAccount_cases (a : Account) (t : Table) :
    (∃ m t1, Postgres.CreateAccount a t = (.error m, t1)) ∨
      Postgres.CreateAccount a t
        = (.ok (), ⟨t.rows ++ [{ a with ID := t.seq + 1 }], t.seq + 1⟩) := by
  unfold Postgres.CreateAccount
  by_cases hf : validText a.FirstName
  · by_cases hl : validText a.LastName
    · by_cases h1 : inInt32 a.Number
      · by_cases h2 : inInt32 a.Balance
        · by_cases h3 : inInt32 (t.seq + 1)
          · by_cases h4 : (t.rows.any (fun r => r.ID == t.seq + 1)) = true
            · exact Or.inl ⟨errDuplicateKey, { t with seq := t.seq + 1 }, by
                simp [hf, hl, h1, h2, h3, h4]⟩
            · exact Or.inr (by simp [hf, hl, h1, h2, h3, h4])
          · exact Or.inl ⟨errSequence, t, by simp [hf, hl, h1, h2, h3]⟩
        · exact Or.inl ⟨errOutOfRange a.Balance, t, by simp [hf, hl, h1, h2]⟩
      · exact Or.inl ⟨errOutOfRange a.Number, t, by simp [hf, hl, h1]⟩
    · exact Or.inl ⟨errInvalidByte, t, by simp [hf, hl]⟩
  · exact Or.inl ⟨errInvalidByte, t, by simp [hf]⟩

/-- Positional notation, one digit at a time. -/
theorem digitsValue_cons (c : Char) (cs : List Char) :
    digitsValue (c :: cs) = (c.toNat - 48) * 10 ^ cs.length + digitsValue cs := by
  unfold digitsValue
  rw [List.reverse_cons, List.map_append, Nat.ofDigits_append]
  simp [Nat.ofDigits_singleton]
  ring

/-- The digit loop returns the denoted number whenever that number fits `uint64`. -/
theorem parseUint_digits (ds : List Char) :
    ∀ n : Nat, (∀ c ∈ ds, c.isDigit = true) →
      n * 10 ^ ds.length + digitsValue ds ≤ 18446744073709551615 →
      parseUint ds n = .ok (n * 10 ^ ds.length + digitsValue ds) := by
  induction ds with
  | nil => intro n _ _; simp [parseUint, digitsValue]
  | cons c cs ih =>
    intro n hd hle
    have hc : c.isDigit = true := hd c (List.mem_cons_self _ _)
    have hcs : ∀ x ∈ cs, x.isDigit = true := fun x hx => hd x (List.mem_cons_of_mem _ hx)
    have heq : n * 10 ^ (c :: cs).length + digitsValue (c :: cs)
        = (10 * n + (c.toNat - 48)) * 10 ^ cs.length + digitsValue cs := by
      rw [digitsValue_cons, List.length_cons, pow_succ]
      ring
    rw [heq] at hle ⊢
    have hpos : 1 ≤ 10 ^ cs.length := Nat.one_le_pow _ _ (by norm_num)
    have hstep : 10 * n + (c.toNat - 48) ≤ 18446744073709551615 := by
      calc 10 * n + (c.toNat - 48)
          = (10 * n + (c.toNat - 48)) * 1 := (Nat.mul_one _).symm
        _ ≤ (10 * n + (c.toNat - 48)) * 10 ^ cs.length := Nat.mul_le_mul_left _ hpos
        _ ≤ 18446744073709551615 := le_trans (Nat.le_add_right _ _) hle
    rw [parseUint, if_pos hc, if_neg (Nat.not_lt.mpr hstep)]
    exact ih _ hcs hle

/-- The digit loop fails on a string that holds a character other than a digit. -/
theorem parseUint_nondigit (ds : List Char) :
    ∀ n : Nat, (∃ c ∈ ds, c.isDigit = false) → ∃ k, parseUint ds n = .error k := by
  induction ds with
  | nil => intro n h; obtain ⟨c, hc, _⟩ := h; simp at hc
  | cons d ds ih =>
    intro n h
    by_cases hd : d.isDigit = true
    · by_cases hov : 10 * n + (d.toNat - 48) > 18446744073709551615
      · exact ⟨.range, by rw [parseUint, if_pos hd, if_pos hov]⟩
      · obtain ⟨c, hc, hcd⟩ := h
        rcases List.mem_cons.mp hc with rfl | hc
        · rw [hd] at hcd; cases hcd
        · obtain ⟨k, hk⟩ := ih (10 * n + (d.toNat - 48)) ⟨c, hc, hcd⟩
          exact ⟨k, by rw [parseUint, if_pos hd, if_neg hov, hk]⟩
    · exact ⟨.invalid, by rw [parseUint, if_neg hd]⟩

/-- A decimal digit is not a sign. -/
theorem not_sign_of_isDigit {c : Char} (h : c.isDigit = true) : c ≠ '+' ∧ c ≠ '-' := by
  constructor <;> (rintro rfl; revert h; decide)

/-- What `strconv.Atoi` returns on a numeral whose number fits `int64`. -/
theorem Atoi_numeral {s : String} {n : Int} (hs : IsNumeralOf s n) (hn : inInt64 n) :
    Atoi s = .ok n := by
  obtain ⟨sign, ds, hdata, hsign, hne, hdig, hval⟩ := hs
  obtain ⟨c, cs, rfl⟩ := List.exists_cons_of_ne_nil hne
  have hc := not_sign_of_isDigit (hdig c (List.mem_cons_self _ _))
  unfold inInt64 at hn
  have hzero : (0 : Nat) * 10 ^ (c :: cs).length + digitsValue (c :: cs) = digitsValue (c :: cs) := by
    simp
  rcases hsign with rfl | rfl | rfl
  · have hpos : (digitsValue (c :: cs) : Int) ≤ 9223372036854775807 := by
      rw [if_neg (by simp)] at hval; omega
    have hp := parseUint_digits (c :: cs) 0 hdig (by rw [hzero]; omega)
    rw [hzero] at hp
    have hlt : ¬ digitsValue (c :: cs) ≥ 9223372036854775808 := by omega
    simp only [List.nil_append] at hdata
    rw [if_neg (by simp)] at hval
    simp [Atoi, hdata, dropSign, isNeg, hc.1, hc.2, hp, hlt, hval]
  · have hpos : (digitsValue (c :: cs) : Int) ≤ 9223372036854775807 := by
      rw [if_neg (by simp)] at hval; omega
    have hp := parseUint_digits (c :: cs) 0 hdig (by rw [hzero]; omega)
    rw [hzero] at hp
    have hlt : ¬ digitsValue (c :: cs) ≥ 9223372036854775808 := by omega
    rw [if_neg (by simp)] at hval
    simp [Atoi, hdata, dropSign, isNeg, hp, hlt, hval]
  · have hpos : (digitsValue (c :: cs) : Int) ≤ 9223372036854775808 := by
      rw [if_pos rfl] at hval; omega
    have hp := parseUint_digits (c :: cs) 0 hdig (by rw [hzero]; omega)
    rw [hzero] at hp
    have hlt : ¬ digitsValue (c :: cs) > 9223372036854775808 := by omega
    rw [if_pos rfl] at hval
    simp [Atoi, hdata, dropSign, isNeg, hp, hlt, hval]

/-- When the digit loop returns a number, every character is a decimal digit and the
number is the one the digits denote. -/
theorem parseUint_ok (ds : List Char) :
    ∀ n v : Nat, parseUint ds n = .ok v →
      (∀ c ∈ ds, c.isDigit = true) ∧ v = n * 10 ^ ds.length + digitsValue ds := by
  induction ds with
  | nil =>
    intro n v h
    simp only [parseUint, Except.ok.injEq] at h
    subst h
    simp [digitsValue]
  | cons c cs ih =>
    intro n v h
    by_cases hc : c.isDigit = true
    · by_cases hov : 10 * n + (c.toNat - 48) > 18446744073709551615
      · rw [parseUint, if_pos hc, if_pos hov] at h; cases h
      · rw [parseUint, if_pos hc, if_neg hov] at h
        obtain ⟨hd, hv⟩ := ih _ _ h
        refine ⟨?_, ?_⟩
        · intro x hx
          rcases List.mem_cons.mp hx with rfl | hx
          · exact hc
          · exact hd x hx
        · rw [hv, digitsValue_cons, List.length_cons, pow_succ]
          ring
    · rw [parseUint, if_neg hc] at h; cases h

/-- The function `strconv.Atoi` returns a number only for a numeral of it, and only a
number of `int64`. -/
theorem Atoi_ok {s : String} {n : Int} (h : Atoi s = .ok n) : IsNumeralOf s n ∧ inInt64 n := by
  unfold Atoi at h
  by_cases hne : dropSign s.data = []
  · rw [if_pos hne] at h; cases h
  · rw [if_neg hne] at h
    cases hp : parseUint (dropSign s.data) 0 with
    | error k => rw [hp] at h; cases h
    | ok un =>
      rw [hp] at h
      obtain ⟨hd, hv⟩ := parseUint_ok _ _ _ hp
      simp only [zero_mul, zero_add] at hv
      cases hs : s.data with
      | nil => rw [hs] at hne; exact absurd rfl hne
      | cons c cs =>
        rw [hs] at h hne hd hv
        by_cases hm : c = '-'
        · subst hm
          have hdrop : dropSign ('-' :: cs) = cs := by simp [dropSign]
          rw [hdrop] at hne hd hv
          simp only [isNeg, decide_True, if_true] at h
          by_cases hr : un > 9223372036854775808
          · rw [if_pos hr] at h; cases h
          · rw [if_neg hr] at h
            simp only [Except.ok.injEq] at h
            refine ⟨⟨['-'], cs, by simpa using hs, Or.inr (Or.inr rfl), hne, hd, ?_⟩, ?_⟩
            · rw [if_pos rfl, ← hv, h]
            · unfold inInt64; omega
        · have hneg : isNeg (c :: cs) = false := by simp [isNeg, hm]
          rw [hneg] at h
          simp only [Bool.false_eq_true, if_false] at h
          by_cases hr : un ≥ 9223372036854775808
          · rw [if_pos hr] at h; cases h
          · rw [if_neg hr] at h
            simp only [Except.ok.injEq] at h
            by_cases hpl : c = '+'
            · subst hpl
              have hdrop : dropSign ('+' :: cs) = cs := by simp [dropSign]
              rw [hdrop] at hne hd hv
              refine ⟨⟨['+'], cs, by simpa using hs, Or.inr (Or.inl rfl), hne, hd, ?_⟩, ?_⟩
              · rw [if_neg (by simp), ← hv, h]
              · unfold inInt64; omega
            · have hdrop : dropSign (c :: cs) = c :: cs := by simp [dropSign, hm, hpl]
              rw [hdrop] at hd hv
              refine ⟨⟨[], c :: cs, by simpa using hs, Or.inl rfl, by simp, hd, ?_⟩, ?_⟩
              · rw [if_neg (by simp), ← hv, h]
              · unfold inInt64; omega

/-- Every error of `strconv.Atoi` names the function and the whole input. -/
theorem Atoi_error_form (s : String) :
    (∃ n, Atoi s = .ok n) ∨ ∃ k, Atoi s = .error ⟨"Atoi", s, k⟩ := by
  unfold Atoi
  by_cases hne : dropSign s.data = []
  · exact Or.inr ⟨.invalid, by rw [if_pos hne]⟩
  · rw [if_neg hne]
    cases hp : parseUint (dropSign s.data) 0 with
    | error k => exact Or.inr ⟨k, rfl⟩
    | ok un =>
      by_cases hm : isNeg s.data = true
      · by_cases hr : un > 9223372036854775808
        · exact Or.inr ⟨.range, by simp [hm, hr]⟩
        · exact Or.inl ⟨-(un : Int), by simp [hm, hr]⟩
      · by_cases hr : un ≥ 9223372036854775808
        · exact Or.inr ⟨.range, by simp [hm, hr]⟩
        · exact Or.inl ⟨(un : Int), by simp [hm, hr]⟩

/-- What `strconv.Atoi` returns on a string that is not a numeral of an `int64`
number. -/
theorem Atoi_not_numeral {s : String} (h : ¬ ∃ n, IsNumeralOf s n ∧ inInt64 n) :
    ∃ k, Atoi s = .error ⟨"Atoi", s, k⟩ := by
  rcases Atoi_error_form s with ⟨n, hn⟩ | hk
  · exact absurd ⟨n, Atoi_ok hn⟩ h
  · exact hk

/-- The message of `strconv.Atoi` for the empty string, whatever the printability
table. -/
theorem Atoi_empty_message (table : Char → Bool) :
    (NumError.mk "Atoi" "" .invalid).Error table
      = "strconv.Atoi: parsing \"\": invalid syntax" := by
  rfl

/-- The string `2-` is not a numeral: a sign may only come first. -/
theorem two_minus_not_numeral (n : Int) : ¬ IsNumeralOf "2-" n := by
  rintro ⟨sign, ds, hdata, hsign, _, hdig, _⟩
  have hd : "2-".data = ['2', '-'] := rfl
  rw [hd] at hdata
  rcases hsign with rfl | rfl | rfl
  · simp only [List.nil_append] at hdata
    subst hdata
    exact absurd (hdig '-' (by simp)) (by decide)
  · simp at hdata
  · simp at hdata

/-- The wrapper turns every error a handler returns into one more response, of status
400, whose `Error` field is the message of that error. -/
theorem makeHTTPHandlerFunc_error {σ : Type} (f : apiFunc σ) (r : Request)
    (w w1 : ResponseWriter) (s s1 : σ) (err : String) (h : f r w s = (some err, w1, s1)) :
    makeHTTPHandlerFunc f r w s = (w1 ++ [⟨400, .apiError err⟩], s1) := by
  simp [makeHTTPHandlerFunc, h, WriteJSON]

/-- The port operation `DeleteAccount` on Postgres succeeds for every key of the column
range: a row with the key is removed, and a table without the key stays as it is. -/
theorem DeleteAccount_port (id : Int) (t : Table) (hr : inInt32 id) :
    (Postgres.DeleteAccount id t).1 = .ok () ∧
      (∀ a ∈ (Postgres.DeleteAccount id t).2.rows, a.ID ≠ id) ∧
      ((∀ a ∈ t.rows, a.ID ≠ id) → (Postgres.DeleteAccount id t).2 = t) := by
  unfold Postgres.DeleteAccount
  rw [if_pos hr]
  refine ⟨rfl, ?_, ?_⟩
  · intro a ha
    simp only [List.mem_filter] at ha
    simpa using ha.2
  · intro hmiss
    have : t.rows.filter (fun r => r.ID != id) = t.rows := by
      rw [List.filter_eq_self]
      intro a ha
      simpa using hmiss a ha
    simp [this]

/-! ## Properties -/

/-- C5: a method that the routing table does not list for the matched route is answered
with status 400 and the body `Error: "method not allowed <method>"`; no response of
the exchange is a 2xx, the storage is untouched and no operation of the persistence
port is called (the call log of the traced provider is unchanged). -/
theorem unlisted_method_rejected {σ : Type} (db : Database σ) (env : Env) (r : Request)
    (rt : Route) (s : σ) (log : List PortCall)
    (hroute : muxMatch r.Path = some rt) (hm : listed rt r.Method = false) :
    Run (traced db) env r (s, log)
        = ([⟨400, .apiError ("method not allowed " ++ r.Method)⟩], (s, log)) ∧
      Run db env r s = ([⟨400, .apiError ("method not allowed " ++ r.Method)⟩], s) ∧
      (∃ rest, "method not allowed " ++ r.Method = "method not allowed" ++ rest) ∧
      ∀ resp ∈ (Run db env r s).1, ¬ (200 ≤ resp.status ∧ resp.status < 300) := by
  have key : Run (traced db) env r (s, log)
        = ([⟨400, .apiError ("method not allowed " ++ r.Method)⟩], (s, log)) ∧
      Run db env r s = ([⟨400, .apiError ("method not allowed " ++ r.Method)⟩], s) := by
    cases rt with
    | transfer =>
      simp only [listed, decide_eq_false_iff_not] at hm
      simp [Run, hroute, makeHTTPHandlerFunc, handlerTransfer, hm, WriteJSON]
    | accounts =>
      simp only [listed, Bool.or_eq_false_iff, decide_eq_false_iff_not] at hm
      obtain ⟨⟨h1, h2⟩, h3⟩ := hm
      simp [Run, hroute, makeHTTPHandlerFunc, handlerAccount, h1, h2, h3, WriteJSON]
    | accountById id =>
      simp only [listed, Bool.or_eq_false_iff, decide_eq_false_iff_not] at hm
      obtain ⟨h1, h2⟩ := hm
      simp [Run, hroute, makeHTTPHandlerFunc, handlerAccountById, h1, h2, WriteJSON]
  refine ⟨key.1, key.2, ⟨" " ++ r.Method, ?_⟩, ?_⟩
  · rw [← String.append_assoc]; rfl
  · intro resp hresp
    rw [key.2] at hresp
    simp only [List.mem_singleton] at hresp
    subst hresp
    simp

/-- C5, a worked instance: `PUT /accounts`. -/
theorem unlisted_method_rejected_witness :
    Run (traced postgres) sampleEnv ⟨"PUT", ["accounts"], "", []⟩ (sampleTable, [])
        = ([⟨400, .apiError ("method not allowed " ++ "PUT")⟩], (sampleTable, [])) ∧
      Run postgres sampleEnv ⟨"PUT", ["accounts"], "", []⟩ sampleTable
        = ([⟨400, .apiError ("method not allowed " ++ "PUT")⟩], sampleTable) ∧
      (∃ rest, "method not allowed " ++ "PUT" = "method not allowed" ++ rest) ∧
      ∀ resp ∈ (Run postgres sampleEnv ⟨"PUT", ["accounts"], "", []⟩ sampleTable).1,
        ¬ (200 ≤ resp.status ∧ resp.status < 300) :=
  unlisted_method_rejected postgres sampleEnv ⟨"PUT", ["accounts"], "", []⟩ .accounts
    sampleTable [] (by decide) (by decide)

/-- C2 (the code at the failing inputs): every `DELETE /accounts` request, whatever its
body and whatever the storage holds, is answered with status 400 and the message of
`strconv.Atoi` for the empty string, because the route has no `id` variable; the
storage is unchanged and `DeleteAccount` is never called. A `DELETE` on
`/accounts/<segment>` changes nothing either and is never answered with status 200. -/
theorem delete_always_rejected {σ : Type} (db : Database σ) (env : Env) (body seg : String)
    (vars : List (String × String)) (s : σ) (log : List PortCall) :
    Run (traced db) env ⟨"DELETE", ["accounts"], body, vars⟩ (s, log)
        = ([⟨400, .apiError "strconv.Atoi: parsing \"\": invalid syntax"⟩], (s, log)) ∧
      (Run (traced db) env ⟨"DELETE", ["accounts", seg], body, vars⟩ (s, log)).2 = (s, log) ∧
      ∀ resp ∈ (Run (traced db) env ⟨"DELETE", ["accounts", seg], body, vars⟩ (s, log)).1,
        resp.status ≠ 200 := by
  refine ⟨?_, ?_⟩
  · have h0 : Atoi "" = .error ⟨"Atoi", "", .invalid⟩ := by decide
    simp [Run, muxMatch, makeHTTPHandlerFunc, handlerAccount, handlerDeleteAccount, toId,
      muxVars, List.lookup, h0, Atoi_empty_message, WriteJSON]
  · by_cases h1 : seg = "transfer"
    · subst h1
      simp [Run, muxMatch, makeHTTPHandlerFunc, handlerTransfer, WriteJSON]
    · by_cases h2 : seg = ""
      · subst h2
        simp [Run, muxMatch]
      · simp [Run, muxMatch, h1, h2, makeHTTPHandlerFunc, handlerAccountById, WriteJSON]

/-- C2, the failing input: `DELETE /accounts` naming account 1, which is stored. -/
theorem delete_always_rejected_witness :
    Run (traced postgres) sampleEnv ⟨"DELETE", ["accounts"], "\x7b\"id\":\"1\"\x7d", []⟩
        (sampleTable, [])
      = ([⟨400, .apiError "strconv.Atoi: parsing \"\": invalid syntax"⟩], (sampleTable, [])) :=
  (delete_always_rejected postgres sampleEnv "\x7b\"id\":\"1\"\x7d" "1" [] sampleTable []).1

/-- C3 (the code at the failing inputs): when the update handler has parsed the id, found
the account and decoded the body, and the `UpdateAccount` operation of the port then
fails, the handler returns nil: nothing at all is written, neither a 400 status nor an
`Error` body. -/
theorem update_failure_not_reported {σ : Type} (db : Database σ) (env : Env) (r : Request)
    (seg : String) (id : Int) (s s1 s2 : σ) (acct : Account) (req : UpdateAccountRequest)
    (e : String)
    (hroute : muxMatch r.Path = some (.accountById seg)) (hm : r.Method = "PATCH")
    (hid : Atoi seg = .ok id)
    (hfind : db.FindAccountById id s = (.ok acct, s1))
    (hdec : env.decodeUpdate r.Body = .ok req)
    (hupd : db.UpdateAccount (UpdateAccount env id req.FirstName req.LastName req.Balance) s1
      = (.error e, s2)) :
    Run db env r s = ([], s2) := by
  have hseg := (muxMatch_accountById hroute).2.1
  simp [Run, hroute, makeHTTPHandlerFunc, handlerAccountById, hm, muxVars_id, hseg,
    handlerUpdateAccount, toId, hid, hfind, hdec, hupd]

/-- C3, the failing input: `PATCH /accounts/1` with balance `2147483648`, which the
`integer` column rejects. -/
theorem update_failure_not_reported_witness :
    Run postgres sampleEnv
      ⟨"PATCH", ["accounts", "1"],
        "\x7b\"firstName\":\"A\",\"lastName\":\"B\",\"balance\":\"2147483648\"\x7d", []⟩
      sampleTable = ([], sampleTable) :=
  update_failure_not_reported postgres sampleEnv _ "1" 1 sampleTable sampleTable sampleTable
    ⟨1, "Ann", "Lee", 424242, 1000, 1600000000⟩ ⟨"A", "B", 2147483648⟩
    (errOutOfRange 2147483648) (by decide) (by decide) (by decide) (by decide) (by decide)
    (by decide)

/-- C6: on `PATCH /accounts/{id}` with an id that parses, when the existence lookup
fails the update handler answers with status 201 and a body whose `error` field reads
`can't find account: <id>`; the answer depends neither on the body nor on its decoder,
and the only port call is the lookup itself (the log gains `FindAccountById id` and no
`UpdateAccount`). On Postgres an id that matches no stored row gives that answer and
leaves the table as it was. -/
theorem update_missing_account {σ : Type} (db : Database σ) (env : Env) (r : Request)
    (seg : String) (id : Int) (s s1 : σ) (log : List PortCall) (e : String) (t : Table)
    (hroute : muxMatch r.Path = some (.accountById seg)) (hm : r.Method = "PATCH")
    (hid : Atoi seg = .ok id)
    (hfind : db.FindAccountById id s = (.error e, s1))
    (hmiss : ∀ a ∈ t.rows, a.ID ≠ id) :
    Run (traced db) env r (s, log)
        = ([⟨201, .object [("error", .str ("can\x27t find account: " ++ toString id))]⟩],
            (s1, log ++ [.FindAccountById id])) ∧
      Run postgres env r t
        = ([⟨201, .object [("error", .str ("can\x27t find account: " ++ toString id))]⟩], t) := by
  have hseg := (muxMatch_accountById hroute).2.1
  constructor
  · simp [Run, hroute, makeHTTPHandlerFunc, handlerAccountById, hm, muxVars_id, hseg,
      handlerUpdateAccount, toId, hid, traced, hfind, WriteJSON]
  · by_cases hr : inInt32 id
    · simp [Run, hroute, makeHTTPHandlerFunc, handlerAccountById, hm, muxVars_id, hseg,
        handlerUpdateAccount, toId, hid, postgres, Postgres.FindAccountById, hr,
        find_absent hmiss, WriteJSON]
    · simp [Run, hroute, makeHTTPHandlerFunc, handlerAccountById, hm, muxVars_id, hseg,
        handlerUpdateAccount, toId, hid, postgres, Postgres.FindAccountById, hr, WriteJSON]

/-- C6, a worked instance: `PATCH /accounts/9` on a table without account 9. -/
theorem update_missing_account_witness :
    Run (traced postgres) sampleEnv ⟨"PATCH", ["accounts", "9"], "", []⟩ (sampleTable, [])
        = ([⟨201, .object [("error", .str ("can\x27t find account: " ++ toString (9 : Int)))]⟩],
            (sampleTable, [] ++ [.FindAccountById 9])) ∧
      Run postgres sampleEnv ⟨"PATCH", ["accounts", "9"], "", []⟩ sampleTable
        = ([⟨201, .object [("error", .str ("can\x27t find account: " ++ toString (9 : Int)))]⟩],
            sampleTable) :=
  update_missing_account postgres sampleEnv ⟨"PATCH", ["accounts", "9"], "", []⟩ "9" 9
    sampleTable sampleTable [] errNoRows sampleTable (by decide) (by decide) (by decide)
    (by decide) (by decide)

/-- C9: on Postgres, `GET /accounts/{id}` with an id that matches no stored account is
answered with status 400 and an `Error` body whose message is not empty (so never with
a 200 envelope), the table unchanged; with an id that matches a stored account it is
answered with status 200, message `success` and that account as data. -/
theorem get_account_by_id (env : Env) (r : Request) (seg : String) (id : Int) (t : Table)
    (hroute : muxMatch r.Path = some (.accountById seg)) (hm : r.Method = "GET")
    (hid : Atoi seg = .ok id) (hwf : t.wf) :
    ((∀ a ∈ t.rows, a.ID ≠ id) →
        ∃ m, m ≠ "" ∧ Run postgres env r t = ([⟨400, .apiError m⟩], t)) ∧
      (∀ a ∈ t.rows, a.ID = id →
        Run postgres env r t
          = ([⟨200, .object [("message", .str "success"), ("data", .account a)]⟩], t)) := by
  have hseg := (muxMatch_accountById hroute).2.1
  constructor
  · intro hmiss
    by_cases hr : inInt32 id
    · refine ⟨errNoRows, by decide, ?_⟩
      simp [Run, hroute, makeHTTPHandlerFunc, handlerAccountById, hm, muxVars_id, hseg,
        handlerFindAccountById, toId, hid, postgres, Postgres.FindAccountById, hr,
        find_absent hmiss, WriteJSON]
    · refine ⟨errOutOfRange id, errOutOfRange_ne_empty id, ?_⟩
      simp [Run, hroute, makeHTTPHandlerFunc, handlerAccountById, hm, muxVars_id, hseg,
        handlerFindAccountById, toId, hid, postgres, Postgres.FindAccountById, hr, WriteJSON]
  · intro a ha haid
    subst haid
    have hr : inInt32 a.ID := (hwf.2 a ha).1.1
    simp [Run, hroute, makeHTTPHandlerFunc, handlerAccountById, hm, muxVars_id, hseg,
      handlerFindAccountById, toId, hid, postgres, Postgres.FindAccountById, hr,
      find_stored hwf.1 ha, WriteJSON]

/-- C9, worked instances: `GET /accounts/999999` and `GET /accounts/2`. -/
theorem get_account_by_id_witness :
    (∃ m, m ≠ "" ∧
        Run postgres sampleEnv ⟨"GET", ["accounts", "999999"], "", []⟩ sampleTable
          = ([⟨400, .apiError m⟩], sampleTable)) ∧
      Run postgres sampleEnv ⟨"GET", ["accounts", "2"], "", []⟩ sampleTable
        = ([⟨200, .object [("message", .str "success"),
              ("data", .account ⟨2, "Bob", "Ray", 777, 50, 1650000000⟩)]⟩], sampleTable) :=
  ⟨(get_account_by_id sampleEnv ⟨"GET", ["accounts", "999999"], "", []⟩ "999999" 999999
      sampleTable (by decide) (by decide) (by decide) (by decide)).1 (by decide),
   (get_account_by_id sampleEnv ⟨"GET", ["accounts", "2"], "", []⟩ "2" 2
      sampleTable (by decide) (by decide) (by decide) (by decide)).2
      ⟨2, "Bob", "Ray", 777, 50, 1650000000⟩ (by decide) (by decide)⟩

/-- C1: on Postgres, for a stored account with balance `B` and an amount `a` such that
`B + a` and `B + 2a` are in the range of the `integer` balance column, a
`POST /accounts/transfer` request that decodes to that account and amount is answered
with status 200, message `transfer succeed` and the account with balance `B + a` as
data; the stored row of the account then has balance `B + a`; and the same request
issued once more on the resulting storage is answered with balance `B + 2a`. -/
theorem transfer_credits (env : Env) (r : Request) (t : Table) (acct : Account) (a : Int)
    (hroute : muxMatch r.Path = some .transfer) (hm : r.Method = "POST")
    (hdec : env.decodeTransfer r.Body = .ok ⟨acct.ID, a⟩)
    (hwf : t.wf) (hacct : acct ∈ t.rows)
    (h1 : inInt32 (acct.Balance + a)) (h2 : inInt32 (acct.Balance + 2 * a)) :
    (Run postgres env r t).1
        = [⟨200, .object [("message", .str "transfer succeed"),
              ("data", .account { acct with Balance := acct.Balance + a })]⟩] ∧
      { acct with Balance := acct.Balance + a } ∈ (Run postgres env r t).2.rows ∧
      (∀ x ∈ (Run postgres env r t).2.rows, x.ID = acct.ID → x.Balance = acct.Balance + a) ∧
      (Run postgres env r (Run postgres env r t).2).1
        = [⟨200, .object [("message", .str "transfer succeed"),
              ("data", .account { acct with Balance := acct.Balance + 2 * a })]⟩] := by
  have hw1 : wrapInt64 (acct.Balance + a) = acct.Balance + a :=
    wrapInt64_of_inInt64 (inInt64_of_inInt32 h1)
  have hsum : acct.Balance + a + a = acct.Balance + 2 * a := by ring
  have hw2 : wrapInt64 (acct.Balance + a + a) = acct.Balance + 2 * a := by
    rw [hsum]; exact wrapInt64_of_inInt64 (inInt64_of_inInt32 h2)
  have step1 := transfer_step env r t acct ⟨acct.ID, a⟩ hroute hm hdec rfl hwf hacct
    (by rw [hw1]; exact h1)
  simp only [hw1] at step1
  have hmem : { acct with Balance := acct.Balance + a } ∈
      t.rows.map (fun x => if x.ID = acct.ID then { x with Balance := acct.Balance + a } else x) :=
    List.mem_map.2 ⟨acct, hacct, by simp⟩
  have hwf1 := wf_credit hwf acct.ID (acct.Balance + a) h1
  have step2 := transfer_step env r _ { acct with Balance := acct.Balance + a } ⟨acct.ID, a⟩
    hroute hm hdec rfl hwf1 hmem (by simp only [hw2]; exact h2)
  simp only [hw2] at step2
  rw [step1]
  refine ⟨rfl, hmem, ?_, ?_⟩
  · intro x hx hid
    simp only [List.mem_map] at hx
    obtain ⟨y, _, rfl⟩ := hx
    by_cases h : y.ID = acct.ID
    · simp [h]
    · simp [h] at hid
  · rw [step2]

/-- C1, a worked instance: two transfers of 100 to account 1, whose balance is 1000. -/
theorem transfer_credits_witness :
    (Run postgres sampleEnv
        ⟨"POST", ["accounts", "transfer"], "\x7b\"toAccount\":\"1\",\"amount\":\"100\"\x7d", []⟩
        sampleTable).1
        = [⟨200, .object [("message", .str "transfer succeed"),
              ("data", .account ⟨1, "Ann", "Lee", 424242, 1000 + 100, 1600000000⟩)]⟩] ∧
      (Run postgres sampleEnv
        ⟨"POST", ["accounts", "transfer"], "\x7b\"toAccount\":\"1\",\"amount\":\"100\"\x7d", []⟩
        (Run postgres sampleEnv
          ⟨"POST", ["accounts", "transfer"], "\x7b\"toAccount\":\"1\",\"amount\":\"100\"\x7d", []⟩
          sampleTable).2).1
        = [⟨200, .object [("message", .str "transfer succeed"),
              ("data", .account ⟨1, "Ann", "Lee", 424242, 1000 + 2 * 100, 1600000000⟩)]⟩] :=
  have h := transfer_credits sampleEnv
    ⟨"POST", ["accounts", "transfer"], "\x7b\"toAccount\":\"1\",\"amount\":\"100\"\x7d", []⟩
    sampleTable ⟨1, "Ann", "Lee", 424242, 1000, 1600000000⟩ 100
    (by decide) (by decide) (by decide) (by decide) (by decide) (by decide) (by decide)
  ⟨h.1, h.2.2.2⟩

/-- C4 as stated fails, twice over. `PATCH /accounts/1` with a body that decodes to the
balance `2147483648` finds the account and decodes, yet no 200 response is written
(nothing is) and row 1 keeps its old values; and so does `PATCH /accounts/1` with a body
that decodes to the balance `500` and a first name holding the character of code
zero. -/
theorem update_balance_out_of_column_range :
    sampleTable.wf ∧
      (⟨1, "Ann", "Lee", 424242, 1000, 1600000000⟩ : Account) ∈ sampleTable.rows ∧
      sampleEnv.decodeUpdate
          "\x7b\"firstName\":\"A\",\"lastName\":\"B\",\"balance\":\"2147483648\"\x7d"
        = .ok ⟨"A", "B", 2147483648⟩ ∧
      Run postgres sampleEnv
          ⟨"PATCH", ["accounts", "1"],
            "\x7b\"firstName\":\"A\",\"lastName\":\"B\",\"balance\":\"2147483648\"\x7d", []⟩
          sampleTable = ([], sampleTable) ∧
      (Run postgres sampleEnv
          ⟨"PATCH", ["accounts", "1"],
            "\x7b\"firstName\":\"A\",\"lastName\":\"B\",\"balance\":\"2147483648\"\x7d", []⟩
          sampleTable).1
        ≠ [⟨200, .object [("message", .str "account updated"),
              ("data", .account ⟨1, "A", "B", 424242, 2147483648, 1700000000⟩)]⟩] ∧
      sampleEnv.decodeUpdate
          "\x7b\"firstName\":\"A\\u0000\",\"lastName\":\"B\",\"balance\":\"500\"\x7d"
        = .ok ⟨"A\x00", "B", 500⟩ ∧
      Run postgres sampleEnv
          ⟨"PATCH", ["accounts", "1"],
            "\x7b\"firstName\":\"A\\u0000\",\"lastName\":\"B\",\"balance\":\"500\"\x7d", []⟩
          sampleTable = ([], sampleTable) ∧
      (Run postgres sampleEnv
          ⟨"PATCH", ["accounts", "1"],
            "\x7b\"firstName\":\"A\\u0000\",\"lastName\":\"B\",\"balance\":\"500\"\x7d", []⟩
          sampleTable).1
        ≠ [⟨200, .object [("message", .str "account updated"),
              ("data", .account ⟨1, "A\x00", "B", 424242, 500, 1700000000⟩)]⟩] := by
  decide

/-- C4, amended: on Postgres, for a stored account with id `i` and number `n`, a
`PATCH /accounts/i` request whose body decodes to a first name `f` and a last name `l`
without the character of code zero and a balance `b` in the range of the `integer`
balance column (the values the `varchar` and `integer` columns hold) is answered with
status 200,
message `account updated` and data with id `i`, names `f` and `l`, balance `b` and
number `n`; afterwards the row of `i` holds these values (with the timestamp of the
update) and every other row is what it was. -/
theorem update_overwrites (env : Env) (r : Request) (seg : String) (t : Table)
    (acct : Account) (req : UpdateAccountRequest)
    (hroute : muxMatch r.Path = some (.accountById seg)) (hm : r.Method = "PATCH")
    (hid : Atoi seg = .ok acct.ID) (hwf : t.wf) (hacct : acct ∈ t.rows)
    (hdec : env.decodeUpdate r.Body = .ok req)
    (hfn : validText req.FirstName) (hln : validText req.LastName)
    (hb : inInt32 req.Balance) :
    Run postgres env r t
        = ([⟨200, .object [("message", .str "account updated"),
              ("data", .account
                ⟨acct.ID, req.FirstName, req.LastName, acct.Number, req.Balance, env.now⟩)]⟩],
            { t with rows := t.rows.map (fun x =>
                if x.ID = acct.ID then
                  ⟨acct.ID, req.FirstName, req.LastName, acct.Number, req.Balance, env.now⟩
                else x) }) ∧
      (⟨acct.ID, req.FirstName, req.LastName, acct.Number, req.Balance, env.now⟩ : Account)
        ∈ (Run postgres env r t).2.rows ∧
      (∀ x ∈ t.rows, x.ID ≠ acct.ID → x ∈ (Run postgres env r t).2.rows) ∧
      (∀ y ∈ (Run postgres env r t).2.rows, y.ID ≠ acct.ID → y ∈ t.rows) := by
  have hseg := (muxMatch_accountById hroute).2.1
  have hf := FindAccountById_stored hwf hacct
  have hu := UpdateAccount_overwrite env hwf hacct req.FirstName req.LastName req.Balance
    hfn hln hb
  have hrun : Run postgres env r t
        = ([⟨200, .object [("message", .str "account updated"),
              ("data", .account
                ⟨acct.ID, req.FirstName, req.LastName, acct.Number, req.Balance, env.now⟩)]⟩],
            { t with rows := t.rows.map (fun x =>
                if x.ID = acct.ID then
                  ⟨acct.ID, req.FirstName, req.LastName, acct.Number, req.Balance, env.now⟩
                else x) }) := by
    simp [Run, hroute, makeHTTPHandlerFunc, handlerAccountById, hm, muxVars_id, hseg,
      handlerUpdateAccount, toId, hid, postgres, hf, hdec, hu, WriteJSON]
  rw [hrun]
  refine ⟨rfl, ?_, ?_, ?_⟩
  · exact List.mem_map.2 ⟨acct, hacct, by simp⟩
  · intro x hx hne
    exact List.mem_map.2 ⟨x, hx, by simp [hne]⟩
  · intro y hy hne
    simp only [List.mem_map] at hy
    obtain ⟨x, hx, rfl⟩ := hy
    by_cases h : x.ID = acct.ID
    · simp [h] at hne
    · simpa [h] using hx

/-- C4 amended, a worked instance: `PATCH /accounts/1` with balance 500. -/
theorem update_overwrites_witness :
    Run postgres sampleEnv
        ⟨"PATCH", ["accounts", "1"],
          "\x7b\"firstName\":\"A\",\"lastName\":\"B\",\"balance\":\"500\"\x7d", []⟩ sampleTable
      = ([⟨200, .object [("message", .str "account updated"),
            ("data", .account ⟨1, "A", "B", 424242, 500, 1700000000⟩)]⟩],
          ⟨[⟨1, "A", "B", 424242, 500, 1700000000⟩, ⟨2, "Bob", "Ray", 777, 50, 1650000000⟩], 2⟩) :=
  (update_overwrites sampleEnv
    ⟨"PATCH", ["accounts", "1"],
      "\x7b\"firstName\":\"A\",\"lastName\":\"B\",\"balance\":\"500\"\x7d", []⟩ "1" sampleTable
    ⟨1, "Ann", "Lee", 424242, 1000, 1600000000⟩ ⟨"A", "B", 500⟩
    (by decide) (by decide) (by decide) (by decide) (by decide) (by decide) (by decide)
    (by decide) (by decide)).1

/-- C10: on Postgres, a request on `/accounts/transfer` has one of two outcomes. Either
it is answered with status 400 and the table is exactly what it was; or it is a `POST`
whose body decodes, the destination is a stored account, the answer is 200, and the
table afterwards is the old one with the balance of the destination row replaced: the
id, names, number and `created_at` of that row, every other row, and the sequence are
what they were. A method other than `POST`, a decode error, and a destination that
matches no row each leave the table unchanged. -/
theorem transfer_frame (env : Env) (r : Request) (t : Table)
    (hroute : muxMatch r.Path = some .transfer) (hwf : t.wf) :
    ((∃ m, Run postgres env r t = ([⟨400, .apiError m⟩], t)) ∨
      (∃ req acct, r.Method = "POST" ∧ env.decodeTransfer r.Body = .ok req ∧
        acct ∈ t.rows ∧ acct.ID = req.ToAccount ∧
        Run postgres env r t
          = ([⟨200, .object [("message", .str "transfer succeed"),
                ("data", .account { acct with Balance := wrapInt64 (acct.Balance + req.Amount) })]⟩],
              { t with rows := t.rows.map (fun x =>
                  if x.ID = acct.ID then
                    { x with Balance := wrapInt64 (acct.Balance + req.Amount) }
                  else x) }))) ∧
      (r.Method ≠ "POST" → (Run postgres env r t).2 = t) ∧
      (∀ e, env.decodeTransfer r.Body = .error e → (Run postgres env r t).2 = t) ∧
      (∀ req, env.decodeTransfer r.Body = .ok req → (∀ a ∈ t.rows, a.ID ≠ req.ToAccount) →
        (Run postgres env r t).2 = t) := by
  refine ⟨?_, ?_, ?_, ?_⟩
  · by_cases hm : r.Method = "POST"
    · cases hdec : env.decodeTransfer r.Body with
      | error e =>
        exact Or.inl ⟨e, by
          simp [Run, hroute, makeHTTPHandlerFunc, handlerTransfer, hm, hdec, WriteJSON]⟩
      | ok req =>
        by_cases hex : ∃ a ∈ t.rows, a.ID = req.ToAccount
        · obtain ⟨acct, hacct, hto⟩ := hex
          by_cases hnb : inInt32 (wrapInt64 (acct.Balance + req.Amount))
          · refine Or.inr ⟨req, acct, hm, rfl, hacct, hto, ?_⟩
            exact transfer_step env r t acct req hroute hm hdec hto.symm hwf hacct hnb
          · obtain ⟨m, hrej⟩ := UpdateAccount_rejected
              { acct with Balance := wrapInt64 (acct.Balance + req.Amount) } t hnb
            have hf := FindAccountById_stored hwf hacct
            rw [hto] at hf
            exact Or.inl ⟨m, by
              simp [Run, hroute, makeHTTPHandlerFunc, handlerTransfer, hm, hdec, postgres, hf,
                hrej, WriteJSON]⟩
        · have hmiss : ∀ a ∈ t.rows, a.ID ≠ req.ToAccount := fun a ha h => hex ⟨a, ha, h⟩
          obtain ⟨m, _, hf⟩ := FindAccountById_absent hmiss
          exact Or.inl ⟨m, by
            simp [Run, hroute, makeHTTPHandlerFunc, handlerTransfer, hm, hdec, postgres, hf,
              WriteJSON]⟩
    · exact Or.inl ⟨"method not allowed " ++ r.Method, by
        simp [Run, hroute, makeHTTPHandlerFunc, handlerTransfer, hm, WriteJSON]⟩
  · intro hm
    simp [Run, hroute, makeHTTPHandlerFunc, handlerTransfer, hm, WriteJSON]
  · intro e hdec
    by_cases hm : r.Method = "POST"
    · simp [Run, hroute, makeHTTPHandlerFunc, handlerTransfer, hm, hdec, WriteJSON]
    · simp [Run, hroute, makeHTTPHandlerFunc, handlerTransfer, hm, WriteJSON]
  · intro req hdec hmiss
    obtain ⟨m, _, hf⟩ := FindAccountById_absent hmiss
    by_cases hm : r.Method = "POST"
    · simp [Run, hroute, makeHTTPHandlerFunc, handlerTransfer, hm, hdec, postgres, hf, WriteJSON]
    · simp [Run, hroute, makeHTTPHandlerFunc, handlerTransfer, hm, WriteJSON]

/-- C10, a worked instance: the frame of a transfer of 100 to account 1. -/
theorem transfer_frame_witness :
    (Run postgres sampleEnv
        ⟨"POST", ["accounts", "transfer"], "\x7b\"toAccount\":\"1\",\"amount\":\"100\"\x7d", []⟩
        sampleTable).2
        = ⟨[⟨1, "Ann", "Lee", 424242, 1100, 1600000000⟩, ⟨2, "Bob", "Ray", 777, 50, 1650000000⟩], 2⟩ ∧
      (Run postgres sampleEnv ⟨"POST", ["accounts", "transfer"], "", []⟩ sampleTable).2
        = sampleTable := by
  refine ⟨by decide, ?_⟩
  exact (transfer_frame sampleEnv ⟨"POST", ["accounts", "transfer"], "", []⟩ sampleTable
    (by decide) (by decide)).2.2.1 "unexpected end of JSON input" (by decide)

/-- C7: for all names, clock and random source, `NewAccount` returns an account with
those names, balance 0, id 0 and a number in `[0, 1000000)`; and when
`POST /accounts` with a body that decodes to those names is answered with status 201
on Postgres, a following `GET /accounts` lists a row with those names, balance 0, that
number and that timestamp, together with every row stored before. -/
theorem create_then_list (env env2 : Env) (r : Request) (t : Table) (f l body2 : String)
    (vars2 : List (String × String))
    (hroute : muxMatch r.Path = some .accounts) (hm : r.Method = "POST")
    (hdec : env.decodeCreate r.Body = .ok ⟨f, l⟩)
    (hok : (Run postgres env r t).1 = [⟨201, .object [("message", .str "account created")]⟩]) :
    ((NewAccount env f l).FirstName = f ∧ (NewAccount env f l).LastName = l ∧
        (NewAccount env f l).Balance = 0 ∧ (NewAccount env f l).ID = 0 ∧
        0 ≤ (NewAccount env f l).Number ∧ (NewAccount env f l).Number < 1000000) ∧
      ∃ rows, Run postgres env2 ⟨"GET", ["accounts"], body2, vars2⟩ (Run postgres env r t).2
          = ([⟨200, .object [("message", .str "success"), ("data", .accounts rows)]⟩],
              (Run postgres env r t).2) ∧
        (∃ row ∈ rows, row.FirstName = f ∧ row.LastName = l ∧ row.Balance = 0 ∧
          row.Number = (NewAccount env f l).Number ∧ row.CreatedAt = env.now) ∧
        ∀ old ∈ t.rows, old ∈ rows := by
  constructor
  · refine ⟨rfl, rfl, rfl, rfl, ?_, ?_⟩
    · simp [NewAccount]
    · have : Intn env.rand 1000000 < 1000000 := Nat.mod_lt _ (by norm_num)
      simp only [NewAccount]
      exact_mod_cast this
  · rcases CreateAccount_cases (NewAccount env f l) t with ⟨m, t1, herr⟩ | hcreate
    · simp [Run, hroute, makeHTTPHandlerFunc, handlerAccount, hm, handlerCreateAccount, hdec,
        postgres, herr, WriteJSON] at hok
    · have hrun : (Run postgres env r t).2
          = ⟨t.rows ++ [{ NewAccount env f l with ID := t.seq + 1 }], t.seq + 1⟩ := by
        simp [Run, hroute, makeHTTPHandlerFunc, handlerAccount, hm, handlerCreateAccount, hdec,
          postgres, hcreate, WriteJSON]
      rw [hrun]
      refine ⟨t.rows ++ [{ NewAccount env f l with ID := t.seq + 1 }], ?_, ?_, ?_⟩
      · simp [Run, muxMatch, makeHTTPHandlerFunc, handlerAccount, handlerFindAccounts, postgres,
          Postgres.FindAccounts, WriteJSON]
      · exact ⟨{ NewAccount env f l with ID := t.seq + 1 }, by simp, rfl, rfl, rfl, rfl, rfl⟩
      · intro old hold
        exact List.mem_append_left _ hold

/-- C7, a worked instance: creating the account of A B and listing afterwards. -/
theorem create_then_list_witness :
    ∃ rows, Run postgres sampleEnv ⟨"GET", ["accounts"], "", []⟩
          (Run postgres sampleEnv
            ⟨"POST", ["accounts"], "\x7b\"firstName\":\"A\",\"lastName\":\"B\"\x7d", []⟩
            sampleTable).2
          = ([⟨200, .object [("message", .str "success"), ("data", .accounts rows)]⟩],
              (Run postgres sampleEnv
                ⟨"POST", ["accounts"], "\x7b\"firstName\":\"A\",\"lastName\":\"B\"\x7d", []⟩
                sampleTable).2) ∧
        (∃ row ∈ rows, row.FirstName = "A" ∧ row.LastName = "B" ∧ row.Balance = 0 ∧
          row.Number = (NewAccount sampleEnv "A" "B").Number ∧ row.CreatedAt = sampleEnv.now) ∧
        ∀ old ∈ sampleTable.rows, old ∈ rows :=
  (create_then_list sampleEnv sampleEnv
    ⟨"POST", ["accounts"], "\x7b\"firstName\":\"A\",\"lastName\":\"B\"\x7d", []⟩
    sampleTable "A" "B" "" [] (by decide) (by decide) (by decide) (by decide)).2

/-- C8: for the path parameter `seg` of a request matched by `/accounts/{id}`: when
`seg` is a base-10 numeral of an integer in the `int64` range, `toId` returns exactly
that integer; when `seg` is anything else (not a numeral at all: a character that is
no digit, a sign alone or inside, no digit; or a numeral outside the range), `toId`
returns the error of `strconv.Atoi` for `seg`, and a `GET` or `PATCH` request is
answered with status 400 and that error as `Error` body, with the storage untouched and
no operation of the persistence port called. -/
theorem id_parsing {σ : Type} (db : Database σ) (env : Env) (r : Request) (seg : String)
    (s : σ) (log : List PortCall)
    (hroute : muxMatch r.Path = some (.accountById seg)) :
    (∀ n, IsNumeralOf seg n → inInt64 n →
        toId env { r with Vars := [("id", seg)] } = .ok n) ∧
      ((¬ ∃ n, IsNumeralOf seg n ∧ inInt64 n) →
        ∃ k, toId env { r with Vars := [("id", seg)] }
              = .error ((NumError.mk "Atoi" seg k).Error env.isPrint) ∧
          (r.Method = "GET" ∨ r.Method = "PATCH" →
            Run (traced db) env r (s, log)
              = ([⟨400, .apiError ((NumError.mk "Atoi" seg k).Error env.isPrint)⟩],
                  (s, log)))) := by
  have hseg := (muxMatch_accountById hroute).2.1
  constructor
  · intro n hnum hn
    simp [toId, muxVars_id, Atoi_numeral hnum hn]
  · intro hbad
    obtain ⟨k, hk⟩ := Atoi_not_numeral hbad
    refine ⟨k, by simp [toId, muxVars_id, hk], ?_⟩
    rintro (hm | hm)
    · simp [Run, hroute, makeHTTPHandlerFunc, handlerAccountById, hm, muxVars_id, hseg,
        handlerFindAccountById, toId, hk, WriteJSON]
    · simp [Run, hroute, makeHTTPHandlerFunc, handlerAccountById, hm, muxVars_id, hseg,
        handlerUpdateAccount, toId, hk, WriteJSON]

/-- C8, worked instances: the parameter `-42`, and the parameter `2-`, made of a digit
and a sign only. -/
theorem id_parsing_witness :
    toId sampleEnv ⟨"GET", ["accounts", "-42"], "", [("id", "-42")]⟩ = .ok (-42) ∧
      ∃ k, toId sampleEnv ⟨"GET", ["accounts", "2-"], "", [("id", "2-")]⟩
            = .error ((NumError.mk "Atoi" "2-" k).Error sampleEnv.isPrint) ∧
        Run (traced postgres) sampleEnv ⟨"GET", ["accounts", "2-"], "", []⟩ (sampleTable, [])
          = ([⟨400, .apiError ((NumError.mk "Atoi" "2-" k).Error sampleEnv.isPrint)⟩],
              (sampleTable, [])) :=
  ⟨(id_parsing postgres sampleEnv ⟨"GET", ["accounts", "-42"], "", []⟩ "-42" sampleTable []
      (by decide)).1 (-42)
      ⟨['-'], ['4', '2'], rfl, Or.inr (Or.inr rfl), by simp, by decide,
        by simp [digitsValue, Nat.ofDigits]⟩
      (by decide),
    let ⟨k, h1, h2⟩ := (id_parsing postgres sampleEnv ⟨"GET", ["accounts", "2-"], "", []⟩ "2-"
      sampleTable [] (by decide)).2 (fun ⟨_, h, _⟩ => two_minus_not_numeral _ h)
    ⟨k, h1, h2 (Or.inl rfl)⟩⟩

end GoCrud
